import Mathlib

/-!
Shallow embedding of the pylint-pyspark style-checker core
(metric library in `pylint_utils.py` plus the six checker classes)
and verification of the frozen claims about it.

The embedding follows the Python 2 source faithfully:
* astroid syntax nodes become the `Node` inductive; each node carries its
  source position (`lineno`, `col_offset`).
* Python attribute lookups that may raise `AttributeError` (e.g. `.name` on
  an `Attribute` node, `.attrname` on a `Name` node) are modelled by
  `Option`-returning accessors; a function that can raise is itself
  `Option`-valued, with `none` standing for a propagated exception.
* `is_line_split` falls off the end of the function for node kinds it does
  not handle; Python then returns `None`.  Its result type is therefore
  `Option Bool`, where `none` models Python's `None` (a *value*, falsy at
  call sites — callers use `(· |>.getD false)` for Python truthiness).
* In Python 2, `pytype()` returns a *string* such as `"__builtin__.int"`,
  and every `str` is an instance of `basestring`; hence the guard
  `isinstance(arg.pytype(), basestring)` in `get_length` is always true.
  This is embedded literally.
-/

namespace PysparkStyle

/-- Source position carried by every astroid node. -/
structure Pos where
  lineno : Nat
  col_offset : Nat
deriving DecidableEq, Repr

/-- Python constant values that can appear in a `Const` node. -/
inductive PyVal where
  | int (n : Int)
  | str (s : String)
  | bool (b : Bool)
  | pynone
deriving DecidableEq, Repr

/-- Python `str(value)`: the textual representation used by `get_length`. -/
def pyStr : PyVal → String
  | .int n => toString n
  | .str s => s
  | .bool b => if b then "True" else "False"
  | .pynone => "None"

/-- astroid `Const.pytype()`: returns the *name* of the python type, a string. -/
def pytype : PyVal → String
  | .int _ => "__builtin__.int"
  | .str _ => "__builtin__.str"
  | .bool _ => "__builtin__.bool"
  | .pynone => "__builtin__.NoneType"

/-- Python 2 `isinstance(s, basestring)` applied to a value that is already a
string: always `true`.  `get_length` applies this to `arg.pytype()`, whose
result is a string for every constant. -/
def isinstance_basestring (_s : String) : Bool := true

/-- The astroid node kinds the checkers and metric functions touch.
`expr` is the astroid `Expr` (expression statement) wrapper; `attribute`
carries its object in the field astroid calls `expr` and the attribute name
in `attrname`. -/
inductive Node where
  | const (pos : Pos) (value : PyVal)
  | name (pos : Pos) (id : String)
  | assignName (pos : Pos) (id : String)
  | binop (pos : Pos) (left : Node) (op : String) (right : Node)
  | call (pos : Pos) (func : Node) (args : List Node)
  | attribute (pos : Pos) (obj : Node) (attrname : String)
  | assign (pos : Pos) (targets : List Node) (value : Node)
  | tuple (pos : Pos) (elts : List Node)
  | list (pos : Pos) (elts : List Node)
  | compare (pos : Pos) (left : Node) (ops : List (String × Node))
  | functionDef (pos : Pos) (fname : String) (params : List Node) (body : List Node)
  | expr (pos : Pos) (value : Node)

namespace Node

/-- The position of a node (`node.lineno` / `node.col_offset`). -/
def posOf : Node → Pos
  | .const p _ => p
  | .name p _ => p
  | .assignName p _ => p
  | .binop p _ _ _ => p
  | .call p _ _ => p
  | .attribute p _ _ => p
  | .assign p _ _ => p
  | .tuple p _ => p
  | .list p _ => p
  | .compare p _ _ => p
  | .functionDef p _ _ _ => p
  | .expr p _ => p

/-- Python `getattr(node, 'attrname')`: only astroid `Attribute` nodes carry
an `attrname`; on any other kind the lookup raises `AttributeError`. -/
def getAttrname : Node → Option String
  | .attribute _ _ a => some a
  | _ => none

/-- Python `getattr(node, 'name')`: astroid `Name`, `AssignName` and
`Function` nodes carry a `name`; on any other kind the lookup raises
`AttributeError`. -/
def getName : Node → Option String
  | .name _ id => some id
  | .assignName _ id => some id
  | .functionDef _ nm _ _ => some nm
  | _ => none

/-- Python `node.func` on a call; raises `AttributeError` otherwise. -/
def callFunc : Node → Option Node
  | .call _ f _ => some f
  | _ => none

/-- Python `node.args` on a call; raises `AttributeError` otherwise.
(astroid `Function` also has `.args`, but as an `Arguments` object, which the
code paths below never reach.) -/
def callArgs : Node → Option (List Node)
  | .call _ _ args => some args
  | _ => none

/-- Python `node.value` for the node kinds of this union that carry a child
node named `value` (`Assign` and `Expr`).  astroid `Const` also has a `value`
attribute, but it holds a raw python object, never a `Call`; both the source
and this embedding therefore treat it as "no call here". -/
def getValue : Node → Option Node
  | .assign _ _ v => some v
  | .expr _ v => some v
  | _ => none

/-- Python `node.elts` (`hasattr(node, 'elts')` holds for `Tuple` and
`List`); on any other kind the lookup raises `AttributeError`. -/
def getElts : Node → Option (List Node)
  | .tuple _ elts => some elts
  | .list _ elts => some elts
  | _ => none

end Node

open Node

/-! ### The metric library (`pylint_utils.py`) -/

mutual

/-- `pylint_utils.get_length`: the estimated one-line rendered length of a
node.  `none` models a raised `AttributeError` (only reachable through a
`Tuple` whose element carries no `name`).  Unhandled kinds (`FunctionDef`,
`Expr`) hit the final `return 0`. -/
def get_length : Node → Option Nat
  | .const _ v =>
      let length := (pyStr v).length
      some (if isinstance_basestring (pytype v) then length + 2 else length)
  | .binop _ l _ r => do
      let ll ← get_length l
      let rl ← get_length r
      some (3 + (ll + rl))
  | .call _ f args => do
      let fl ← get_length f
      let al ← compute_arguments_length args
      some (fl + al + 2)
  | .attribute _ obj attrname => do
      let objLen ← match getName obj with
        | some nm => some nm.length
        | none => get_length obj
      some (objLen + 1 + attrname.length)
  | .assign _ targets value => do
      let tl ← compute_target_lengths targets
      let vl ← get_length value
      some (2 + vl + tl)
  | .tuple _ elts => do
      let base ← sum_elt_name_lengths elts
      some (if elts.length > 1 then base + (elts.length - 1) * 2 else base)
  | .name _ id => some id.length
  | .assignName _ id => some id.length
  | .compare _ left ops => do
      let opsLen ← compare_ops_length ops
      let ll ← get_length left
      some (opsLen + ll)
  | .list _ elts => list_elts_length elts
  | .functionDef _ _ _ _ => some 0
  | .expr _ _ => some 0

/-- `pylint_utils.compute_arguments_length`: sum of `get_length` over the
argument list. -/
def compute_arguments_length : List Node → Option Nat
  | [] => some 0
  | a :: rest => do
      let l ← get_length a
      let r ← compute_arguments_length rest
      some (l + r)

/-- `pylint_utils.compute_target_lengths`: sum of `get_length` over the
assignment targets. -/
def compute_target_lengths : List Node → Option Nat
  | [] => some 0
  | t :: rest => do
      let l ← get_length t
      let r ← compute_target_lengths rest
      some (l + r)

/-- The `Tuple` loop of `get_length`: `len(value.name)` summed over the
elements; an element without a `name` raises `AttributeError`. -/
def sum_elt_name_lengths : List Node → Option Nat
  | [] => some 0
  | e :: rest => do
      let nm ← getName e
      let r ← sum_elt_name_lengths rest
      some (nm.length + r)

/-- The `Compare` loop of `get_length`: `2 + len(op[0]) + get_length(op[1])`
summed over the (operator, operand) pairs. -/
def compare_ops_length : List (String × Node) → Option Nat
  | [] => some 0
  | (op, operand) :: rest => do
      let l ← get_length operand
      let r ← compare_ops_length rest
      some (2 + op.length + l + r)

/-- The `List` loop of `get_length`: sum of `get_length` over the elements. -/
def list_elts_length : List Node → Option Nat
  | [] => some 0
  | e :: rest => do
      let l ← get_length e
      let r ← list_elts_length rest
      some (l + r)

end

/-- `pylint_utils.is_line_split`.  Handles `Function`, `Call` and `Assign`
nodes and returns a boolean for them; for every other kind the Python
function falls off its end and returns `None`, modelled as `none`. -/
def is_line_split (val : Node) : Option Bool :=
  match val with
  | .functionDef p _ params _ =>
      some (params.any fun a => (posOf a).lineno != p.lineno)
  | .call p _ args =>
      some (args.any fun a => (posOf a).lineno != p.lineno)
  | .assign p _ value =>
      -- `hasattr(val.value, 'args')` holds for `Call`; `hasattr(val.value,
      -- 'elts')` holds for `Tuple` and `List`.  The Python code returns True
      -- as soon as either loop finds an argument on a different line.
      let argsSplit := match value with
        | .call _ _ cargs => cargs.any fun a => (posOf a).lineno != p.lineno
        | _ => false
      let eltsSplit := match value with
        | .tuple _ elts => elts.any fun a => (posOf a).lineno != p.lineno
        | .list _ elts => elts.any fun a => (posOf a).lineno != p.lineno
        | _ => false
      some (argsSplit || eltsSplit)
  | _ => none

/-- Python truthiness of an `is_line_split` result: `None` is falsy. -/
def truthy (b : Option Bool) : Bool := b.getD false

/-- `pylint_utils.get_binary_op_complexity`. -/
def get_binary_op_complexity : Node → Nat
  | .binop _ l _ r =>
      let nested := get_binary_op_complexity l + get_binary_op_complexity r
      1 + (if nested > 0 then nested else 1)
  | _ => 0

/-- The loop of `select_contains_alias_call`: scans the arguments of the
select call; `arg.func.attrname` raises `AttributeError` when an argument is
a `Call` whose callee carries no `attrname`. -/
def args_contain_alias : List Node → Option Bool
  | [] => some false
  | a :: rest =>
      match a with
      | .call _ f _ =>
          match getAttrname f with
          | none => none
          | some an => if an = "alias" then some true else args_contain_alias rest
      | _ => args_contain_alias rest

/-- The loop of `select_contains_cast_call`, symmetric with the alias loop. -/
def args_contain_cast : List Node → Option Bool
  | [] => some false
  | a :: rest =>
      match a with
      | .call _ f _ =>
          match getAttrname f with
          | none => none
          | some an => if an = "cast" then some true else args_contain_cast rest
      | _ => args_contain_cast rest

/-- `pylint_utils.select_contains_alias_call`.  `expression.value.func` is
evaluated before the `hasattr` guard, so a statement whose value is not a
call raises; the guard only protects the `attrname` lookup itself. -/
def select_contains_alias_call (expression : Node) : Option Bool := do
  let v ← getValue expression
  let f ← callFunc v
  match getAttrname f with
  | none => some false
  | some an =>
      if an = "select" then do
        let args ← callArgs v
        args_contain_alias args
      else some false

/-- `pylint_utils.select_contains_cast_call`.  Note: after the `attrname`
`hasattr` guard the source compares `expression.value.func.name` — the
attribute `name`, not `attrname` — against `'select'`; an `Attribute` callee
carries no `name`, so that lookup raises. -/
def select_contains_cast_call (expression : Node) : Option Bool := do
  let v ← getValue expression
  let f ← callFunc v
  match getAttrname f with
  | none => some false
  | some _ => do
      let nm ← getName f
      if nm = "select" then do
        let args ← callArgs v
        args_contain_cast args
      else some false

/-- `chained_function_checker.get_num_of_first_level_functions`.  The
`hasattr(node, 'value')` branch fires for `Assign` and `Expr` nodes (astroid
`Const` also has a raw `value`, never a `Call`); the `hasattr(node, 'expr')`
branch fires for `Attribute` nodes. -/
def get_num_of_first_level_functions : Node → Nat → Nat
  | .assign _ _ value, counter =>
      (match value with
       | .call _ f _ => get_num_of_first_level_functions f (counter + 1)
       | _ => counter)
  | .expr _ value, counter =>
      (match value with
       | .call _ f _ => get_num_of_first_level_functions f (counter + 1)
       | _ => counter)
  | .attribute _ obj _, counter =>
      (match obj with
       | .call _ f _ => get_num_of_first_level_functions f (counter + 1)
       | _ => counter)
  | _, counter => counter

/-! ### Diagnostics and the checker visit methods -/

/-- A diagnostic emitted by `add_message`, anchored at a node's position. -/
structure Diagnostic where
  ruleId : String
  line : Nat
  col : Nat
deriving DecidableEq, Repr

/-- `add_message(ruleId, node=n)`. -/
def mkDiag (ruleId : String) (n : Node) : Diagnostic :=
  ⟨ruleId, (posOf n).lineno, (posOf n).col_offset⟩

/-- `SelectAliasChecker.visit_expr`: emits `select-contains-alias` when
`select_contains_alias_call` holds. -/
def selectAliasChecker_visit_expr (node : Node) : Option (List Diagnostic) := do
  let b ← select_contains_alias_call node
  some (if b then [mkDiag "select-contains-alias" node] else [])

/-- `SelectCastChecker.visit_expr`: the source imports and calls
`select_contains_alias_call` (not `select_contains_cast_call`) and emits
`select-contains-cast` when it holds. -/
def selectCastChecker_visit_expr (node : Node) : Option (List Diagnostic) := do
  let b ← select_contains_alias_call node
  some (if b then [mkDiag "select-contains-cast" node] else [])

/-- `LogicOpComplexityChecker.visit_binop`. -/
def logicOpComplexityChecker_visit_binop (node : Node) : List Diagnostic :=
  if get_binary_op_complexity node > 3 then
    [mkDiag "high-logic-op-complexity" node]
  else []

/-- `ChainedDotFunctionsSyntaxChecker.visit_assign`. -/
def chainedChecker_visit_assign (node : Node) : List Diagnostic :=
  if get_num_of_first_level_functions node 0 > 3 then
    [mkDiag "chained-function-length" node]
  else []

/-- The pylint dispatch for `ChainedDotFunctionsSyntaxChecker`: the class
defines only `visit_assign`, so the linter invokes it on `Assign` nodes and
on no other kind. -/
def chainedChecker_visit (node : Node) : List Diagnostic :=
  match node with
  | .assign _ _ _ => chainedChecker_visit_assign node
  | _ => []

/-- `StatementCallChecker.visit_assign`: emits `unnecessarily-split-statement`
when the assignment is line-split and `get_length(node) + 3 <= 120`. -/
def statementCallChecker_visit_assign (node : Node) : Option (List Diagnostic) :=
  if truthy (is_line_split node) then do
    let n ← get_length node
    some (if n + 3 ≤ 120 then [mkDiag "unnecessarily-split-statement" node] else [])
  else some []

/-- The body of the `FunctionCallChecker.visit_functiondef` loop for one
statement: an `Expr` statement whose value is line-split is measured as
`len(statement.value.func.name) + statement.col_offset + args_length`, with
the diagnostic anchored at the enclosing function definition. -/
def functionCallChecker_process_stmt (fdef : Node) (stmt : Node) :
    Option (List Diagnostic) :=
  match stmt with
  | .expr spos value =>
      if truthy (is_line_split value) then do
        let args ← callArgs value
        let args_length ← compute_arguments_length args
        let f ← callFunc value
        let nm ← getName f
        let total_length := nm.length + spos.col_offset + args_length
        some (if total_length ≤ 120 then [mkDiag "unnecessarily-split-call" fdef] else [])
      else some []
  | _ => some []

/-- The full statement loop of `FunctionCallChecker.visit_functiondef`:
diagnostics accumulate in body order; an exception in one statement aborts
the whole visit (Python's loop is not isolated per statement). -/
def functionCallChecker_process_body (fdef : Node) :
    List Node → Option (List Diagnostic)
  | [] => some []
  | s :: rest => do
      let d ← functionCallChecker_process_stmt fdef s
      let ds ← functionCallChecker_process_body fdef rest
      some (d ++ ds)

/-- `FunctionCallChecker.visit_functiondef`. -/
def functionCallChecker_visit_functiondef (node : Node) : Option (List Diagnostic) :=
  match node with
  | .functionDef _ _ _ body => functionCallChecker_process_body node body
  | _ => some []

/-! ### Auxiliary discriminators and node families used in the claims -/

/-- The `isinstance(arg, astroid.nodes.BinOp)` test. -/
def isBinOp : Node → Bool
  | .binop _ _ _ _ => true
  | _ => false

/-- The node kinds for which `is_line_split` has an explicit branch
(`Function`, `Call`, `Assign`); for every other kind the Python function
returns `None`. -/
def lineSplitHandled : Node → Bool
  | .functionDef _ _ _ _ => true
  | .call _ _ _ => true
  | .assign _ _ _ => true
  | _ => false

/-- Default position for single-line example trees. -/
def pos0 : Pos := ⟨1, 0⟩

/-- `a.f1().f2()...fk()`: `k` nested callee-position calls applied to the
name `a`, all on one line. -/
def chainValue : Nat → Node
  | 0 => .name pos0 "a"
  | k + 1 => .call pos0 (.attribute pos0 (chainValue k) ("f" ++ toString (k + 1))) []

/-- `x = a.f1()...fk()` as an assignment. -/
def chainAssign (k : Nat) : Node := .assign pos0 [.assignName pos0 "x"] (chainValue k)

/-- `a.f1()...fk()` as a bare expression statement. -/
def chainExprStmt (k : Nat) : Node := .expr pos0 (chainValue k)

/-- A tuple whose elements are all simple names. -/
def tupleOfNames (p : Pos) (elts : List (Pos × String)) : Node :=
  .tuple p (elts.map fun q => Node.name q.1 q.2)

/-- `df.select(col.cast("int"))` as an expression statement. -/
def dfSelectCast : Node :=
  .expr pos0 (.call pos0 (.attribute pos0 (.name pos0 "df") "select")
    [.call pos0 (.attribute pos0 (.name pos0 "col") "cast") [.const pos0 (.str "int")]])

/-- `df.select(col.alias("x"))` as an expression statement. -/
def dfSelectAlias : Node :=
  .expr pos0 (.call pos0 (.attribute pos0 (.name pos0 "df") "select")
    [.call pos0 (.attribute pos0 (.name pos0 "col") "alias") [.const pos0 (.str "x")]])

/-- `df.select(col)` as an expression statement. -/
def dfSelectPlain : Node :=
  .expr pos0 (.call pos0 (.attribute pos0 (.name pos0 "df") "select") [.name pos0 "col"])

/-- `df.select(f(x))`: a select call one of whose arguments is a call whose
callee is a plain `Name` (no `attrname`). -/
def dfSelectNameCall : Node :=
  .expr pos0 (.call pos0 (.attribute pos0 (.name pos0 "df") "select")
    [.call pos0 (.name pos0 "f") [.name pos0 "x"]])

/-- `((a + b) + c) + d`: three left-nested binary operations. -/
def binopNested3 : Node :=
  .binop pos0
    (.binop pos0
      (.binop pos0 (.name pos0 "a") "+" (.name pos0 "b")) "+" (.name pos0 "c"))
    "+" (.name pos0 "d")

/-- `f(g(h(x)))`: a single callee-position call with deeply nested calls in
argument position. -/
def nestedArgCall : Node :=
  .call pos0 (.name pos0 "f")
    [.call pos0 (.name pos0 "g") [.call pos0 (.name pos0 "h") [.name pos0 "x"]]]

/-- `f(a)` with the argument `a` on line 2 while the call anchors on line 1:
a line-split call statement, at column 4 inside a function body. -/
def splitCallStmt : Node :=
  .expr ⟨1, 4⟩ (.call ⟨1, 4⟩ (.name ⟨1, 4⟩ "f") [.name ⟨2, 8⟩ "a"])

/-- A function definition whose body is the single split call statement. -/
def enclosingFdef : Node := .functionDef ⟨1, 0⟩ "g" [] [splitCallStmt]

/-- `x = f(a)` with the argument on line 2: a line-split assignment. -/
def splitAssign : Node :=
  .assign pos0 [.assignName pos0 "x"]
    (.call pos0 (.name pos0 "f") [.name ⟨2, 4⟩ "a"])

/-! ### Helper lemmas -/

theorem complexity_eq_zero_of_not_binop (nd : Node) (h : isBinOp nd = false) :
    get_binary_op_complexity nd = 0 := by
  cases nd <;> first | rfl | simp [isBinOp] at h

theorem complexity_binop_eq_max (p : Pos) (l : Node) (op : String) (r : Node) :
    get_binary_op_complexity (.binop p l op r)
      = 1 + max (get_binary_op_complexity l + get_binary_op_complexity r) 1 := by
  simp only [get_binary_op_complexity]
  split <;> omega

theorem gnoflf_attr_chain (k : Nat) (s : String) (c : Nat) :
    get_num_of_first_level_functions (.attribute pos0 (chainValue k) s) c = c + k := by
  induction k generalizing s c with
  | zero => rfl
  | succ j ih =>
      rw [chainValue]
      simp only [get_num_of_first_level_functions]
      rw [ih]
      omega

theorem gnoflf_assign_chain (k : Nat) :
    get_num_of_first_level_functions (chainAssign k) 0 = k := by
  cases k with
  | zero => rfl
  | succ j =>
      rw [chainAssign, chainValue]
      simp only [get_num_of_first_level_functions]
      rw [gnoflf_attr_chain]
      omega

theorem gnoflf_exprstmt_chain (k : Nat) :
    get_num_of_first_level_functions (chainExprStmt k) 0 = k := by
  cases k with
  | zero => rfl
  | succ j =>
      rw [chainExprStmt, chainValue]
      simp only [get_num_of_first_level_functions]
      rw [gnoflf_attr_chain]
      omega

theorem args_contain_alias_cons_none (aq : Pos) (inner : Node)
    (iargs rest : List Node) (h : getAttrname inner = none) :
    args_contain_alias (Node.call aq inner iargs :: rest) = none := by
  simp only [args_contain_alias, h]

theorem sum_elt_name_lengths_names (elts : List (Pos × String)) :
    sum_elt_name_lengths (elts.map fun q => Node.name q.1 q.2)
      = some ((elts.map fun q => q.2.length).sum) := by
  induction elts with
  | nil => rfl
  | cons e rest ih => simp [sum_elt_name_lengths, getName, ih]

theorem list_elts_length_eq_mapM (elts : List Node) (lens : List Nat)
    (h : elts.mapM get_length = some lens) :
    list_elts_length elts = some lens.sum := by
  induction elts generalizing lens with
  | nil =>
      simp only [List.mapM_nil, pure, Option.some.injEq] at h
      subst h
      rfl
  | cons e rest ih =>
      rw [List.mapM_cons] at h
      cases hg : get_length e with
      | none => rw [hg] at h; simp at h
      | some l =>
          rw [hg] at h
          cases hr : rest.mapM get_length with
          | none => rw [hr] at h; simp at h
          | some ls =>
              rw [hr] at h
              have hl : l :: ls = lens := by simpa using h
              subst hl
              simp [list_elts_length, hg, ih ls hr]

/-! ### Claim theorems -/

/-- C1: the claim says the select-cast rule emits `select-contains-cast`
exactly when some direct argument of a `select` call is a `.cast(...)` call.
The code wires `SelectCastChecker.visit_expr` to `select_contains_alias_call`,
so `df.select(col.cast("int"))` produces no diagnostic at all while
`df.select(col.alias("x"))` makes the *cast* rule fire; moreover the intended
predicate `select_contains_cast_call` itself reads `func.name` instead of
`func.attrname` and raises `AttributeError` on every method-call callee.
The alias half of the claim behaves as stated, and `df.select(col)` is clean
for both rules. -/
theorem C1_select_cast_rule_miswired :
    selectCastChecker_visit_expr dfSelectCast = some []
    ∧ selectCastChecker_visit_expr dfSelectAlias
        = some [⟨"select-contains-cast", 1, 0⟩]
    ∧ selectAliasChecker_visit_expr dfSelectAlias
        = some [⟨"select-contains-alias", 1, 0⟩]
    ∧ selectAliasChecker_visit_expr dfSelectCast = some []
    ∧ selectAliasChecker_visit_expr dfSelectPlain = some []
    ∧ selectCastChecker_visit_expr dfSelectPlain = some []
    ∧ select_contains_cast_call dfSelectCast = none :=
  ⟨rfl, rfl, rfl, rfl, rfl, rfl, rfl⟩

/-- C2: `get_binary_op_complexity` returns 0 for every non-BinOp node and
`1 + max(leftComplexity + rightComplexity, 1)` for a BinOp; a BinOp with two
non-BinOp operands has complexity exactly 2; three left-nested BinOps have
complexity 4, which exceeds the threshold 3 and makes `visit_binop` emit the
high-logic-op-complexity diagnostic. -/
theorem C2_binary_op_complexity :
    (∀ nd : Node, isBinOp nd = false → get_binary_op_complexity nd = 0)
    ∧ (∀ (p : Pos) (l : Node) (op : String) (r : Node),
        get_binary_op_complexity (.binop p l op r)
          = 1 + max (get_binary_op_complexity l + get_binary_op_complexity r) 1)
    ∧ (∀ (p : Pos) (l : Node) (op : String) (r : Node),
        isBinOp l = false → isBinOp r = false →
        get_binary_op_complexity (.binop p l op r) = 2)
    ∧ get_binary_op_complexity binopNested3 = 4
    ∧ (3 < get_binary_op_complexity binopNested3
        ∧ logicOpComplexityChecker_visit_binop binopNested3
            = [⟨"high-logic-op-complexity", 1, 0⟩]) := by
  refine ⟨complexity_eq_zero_of_not_binop, complexity_binop_eq_max, ?_, rfl,
    by rw [show get_binary_op_complexity binopNested3 = 4 from rfl]; norm_num, rfl⟩
  intro p l op r hl hr
  rw [complexity_binop_eq_max, complexity_eq_zero_of_not_binop l hl,
    complexity_eq_zero_of_not_binop r hr]
  omega

/-- C2 witness: the theorem applied at a bare name (complexity 0) and at
`a + b` (complexity 2). -/
theorem C2_binary_op_complexity_witness :
    get_binary_op_complexity (Node.name pos0 "q") = 0
    ∧ get_binary_op_complexity
        (Node.binop pos0 (Node.name pos0 "a") "+" (Node.name pos0 "b")) = 2 :=
  ⟨C2_binary_op_complexity.1 _ rfl,
   C2_binary_op_complexity.2.2.1 pos0 _ "+" _ rfl rfl⟩

/-- C3 counterexample: `a.f1().f2().f3().f4()` as an *expression statement*
has chain depth 4, yet the chained-function checker emits nothing for it,
because `ChainedDotFunctionsSyntaxChecker` defines only `visit_assign`. -/
theorem C3_chained_exprstmt_counterexample :
    get_num_of_first_level_functions (chainExprStmt 4) 0 = 4
    ∧ 3 < get_num_of_first_level_functions (chainExprStmt 4) 0
    ∧ chainedChecker_visit (chainExprStmt 4) = [] :=
  ⟨rfl, by norm_num [gnoflf_exprstmt_chain], rfl⟩

/-- C3 amended: the chain depth of an assignment or expression statement
whose value is `k` nested callee-position calls is exactly `k`, and 0 for a
bare name or literal value; the chained-function-length diagnostic is
emitted exactly for *Assign* nodes of depth above 3 (a depth-4 assignment
fires, a depth-3 one does not), while an expression statement never
triggers the rule, the checker defining only `visit_assign`. -/
theorem C3_chained_function_amended :
    (∀ k : Nat, get_num_of_first_level_functions (chainAssign k) 0 = k)
    ∧ (∀ k : Nat, get_num_of_first_level_functions (chainExprStmt k) 0 = k)
    ∧ (∀ (p q : Pos) (ts : List Node) (id : String),
        get_num_of_first_level_functions (.assign p ts (.name q id)) 0 = 0)
    ∧ (∀ (p q : Pos) (ts : List Node) (v : PyVal),
        get_num_of_first_level_functions (.assign p ts (.const q v)) 0 = 0)
    ∧ (∀ k : Nat, chainedChecker_visit (chainAssign k)
        = if 3 < k then [⟨"chained-function-length", 1, 0⟩] else [])
    ∧ (∀ k : Nat, chainedChecker_visit (chainExprStmt k) = []) := by
  refine ⟨gnoflf_assign_chain, gnoflf_exprstmt_chain,
    fun p q ts id => rfl, fun p q ts v => rfl, ?_, ?_⟩
  · intro k
    have h := gnoflf_assign_chain k
    rw [chainAssign] at h ⊢
    simp only [chainedChecker_visit, chainedChecker_visit_assign, h]
    rfl
  · intro k
    rw [chainExprStmt]
    rfl

/-- C5: the claim says `get_length` adds the +2 quote adjustment only for
string literals.  In the source, `isinstance(arg.pytype(), basestring)` tests
the *type-name string* returned by `pytype()` and is therefore always true:
every literal gets +2.  A string literal of length n does yield n + 2, but
the integer literal 42 yields 4, not 2. -/
theorem C5_literal_length_always_plus_two :
    get_length (Node.const pos0 (PyVal.int 42)) = some 4
    ∧ get_length (Node.const pos0 (PyVal.str "ab")) = some 4
    ∧ (∀ (p : Pos) (s : String),
        get_length (Node.const p (PyVal.str s)) = some (s.length + 2))
    ∧ (∀ (p : Pos) (n : Int),
        get_length (Node.const p (PyVal.int n)) = some ((toString n).length + 2)) :=
  ⟨rfl, rfl, fun p s => rfl, fun p n => rfl⟩

/-- C10: chain depth counts only calls in callee position: an assignment
whose value is a call with a simple-name callee has depth exactly 1, no
matter how deeply calls nest inside the argument list, so the
chained-function-length rule cannot fire on argument nesting alone. -/
theorem C10_chain_depth_ignores_argument_calls :
    (∀ (p ap np : Pos) (ts : List Node) (fn : String) (args : List Node),
        get_num_of_first_level_functions
          (Node.assign p ts (Node.call ap (Node.name np fn) args)) 0 = 1)
    ∧ (∀ (p ap np : Pos) (ts : List Node) (fn : String) (args : List Node),
        chainedChecker_visit
          (Node.assign p ts (Node.call ap (Node.name np fn) args)) = [])
    ∧ get_num_of_first_level_functions
        (Node.assign pos0 [Node.assignName pos0 "y"] nestedArgCall) 0 = 1 :=
  ⟨fun p ap np ts fn args => rfl, fun p ap np ts fn args => rfl, rfl⟩

/-- C4: inside `visit_functiondef`, a direct-child expression statement
wrapping a call (with a simple-name callee, the only shape whose
`func.name` is defined, and anchoring at the same column as the statement)
gets the `unnecessarily-split-call` diagnostic exactly when the call is
line-split and `len(calleeName) + calleeColumnOffset + argumentsLength <= 120`. -/
theorem C4_unnecessary_call_split (fp spos cpos npos : Pos) (fname nm : String)
    (params body args : List Node) (al : Nat)
    (hargs : compute_arguments_length args = some al)
    (hcol : spos.col_offset = npos.col_offset) :
    functionCallChecker_process_stmt (Node.functionDef fp fname params body)
        (Node.expr spos (Node.call cpos (Node.name npos nm) args))
      = some (if truthy (is_line_split (Node.call cpos (Node.name npos nm) args)) = true
                 ∧ nm.length + npos.col_offset + al ≤ 120
              then [mkDiag "unnecessarily-split-call" (Node.functionDef fp fname params body)]
              else [])
    ∧ functionCallChecker_visit_functiondef (Node.functionDef fp fname params body)
      = functionCallChecker_process_body (Node.functionDef fp fname params body) body := by
  refine ⟨?_, rfl⟩
  rw [functionCallChecker_process_stmt]
  cases hsplit : truthy (is_line_split (Node.call cpos (Node.name npos nm) args)) with
  | false => simp [hsplit]
  | true => simp [hsplit, callArgs, callFunc, getName, hargs, hcol]

/-- C4 witness: the theorem applied to `f(a)` split over two lines at column
4 — rendered width 6, within 120 — which the checker flags. -/
theorem C4_unnecessary_call_split_witness :
    compute_arguments_length [Node.name ⟨2, 8⟩ "a"] = some 1
    ∧ functionCallChecker_process_stmt enclosingFdef splitCallStmt
        = some [⟨"unnecessarily-split-call", 1, 0⟩] := by
  refine ⟨rfl, ?_⟩
  have h := (C4_unnecessary_call_split ⟨1, 0⟩ ⟨1, 4⟩ ⟨1, 4⟩ ⟨1, 4⟩ "g" "f"
    [] [splitCallStmt] [Node.name ⟨2, 8⟩ "a"] 1 rfl rfl).1
  rw [show truthy (is_line_split (Node.call ⟨1, 4⟩ (Node.name ⟨1, 4⟩ "f")
      [Node.name ⟨2, 8⟩ "a"])) = true from rfl] at h
  simpa [enclosingFdef, splitCallStmt, mkDiag, posOf] using h

/-- C6: `StatementCallChecker.visit_assign` emits
`unnecessarily-split-statement` exactly when the assignment is line-split and
`get_length(assign) + 3 <= 120`, and emits at most one diagnostic per node;
an assignment that is not line-split produces nothing. -/
theorem C6_unnecessary_statement_split :
    (∀ (p : Pos) (ts : List Node) (v : Node) (n : Nat),
        get_length (Node.assign p ts v) = some n →
        statementCallChecker_visit_assign (Node.assign p ts v)
          = some (if truthy (is_line_split (Node.assign p ts v)) = true ∧ n + 3 ≤ 120
                  then [mkDiag "unnecessarily-split-statement" (Node.assign p ts v)]
                  else []))
    ∧ (∀ (p : Pos) (ts : List Node) (v : Node),
        truthy (is_line_split (Node.assign p ts v)) = false →
        statementCallChecker_visit_assign (Node.assign p ts v) = some [])
    ∧ (∀ (a : Node) (ds : List Diagnostic),
        statementCallChecker_visit_assign a = some ds → ds.length ≤ 1) := by
  refine ⟨?_, ?_, ?_⟩
  · intro p ts v n h
    rw [statementCallChecker_visit_assign]
    cases hsplit : truthy (is_line_split (Node.assign p ts v)) with
    | false => simp [hsplit]
    | true => simp [hsplit, h]
  · intro p ts v h
    rw [statementCallChecker_visit_assign, h]
    simp
  · intro a ds h
    rw [statementCallChecker_visit_assign] at h
    split at h
    · cases hg : get_length a with
      | none => rw [hg] at h; simp at h
      | some n =>
          rw [hg] at h
          have hd : (if n + 3 ≤ 120
              then [mkDiag "unnecessarily-split-statement" a] else []) = ds := by
            simpa using h
          rw [← hd]
          split <;> simp
    · have hd : ds = [] := by simpa using h.symm
      simp [hd]

/-- C6 witness: `x = f(a)` with the argument on line 2 — rendered length 7,
within 120 — which the checker flags exactly once. -/
theorem C6_unnecessary_statement_split_witness :
    get_length splitAssign = some 7
    ∧ statementCallChecker_visit_assign splitAssign
        = some [⟨"unnecessarily-split-statement", 1, 0⟩] := by
  refine ⟨rfl, ?_⟩
  have h := C6_unnecessary_statement_split.1 pos0 [Node.assignName pos0 "x"]
    (Node.call pos0 (Node.name pos0 "f") [Node.name ⟨2, 4⟩ "a"]) 7 rfl
  rw [show truthy (is_line_split (Node.assign pos0 [Node.assignName pos0 "x"]
      (Node.call pos0 (Node.name pos0 "f") [Node.name ⟨2, 4⟩ "a"]))) = true from rfl] at h
  simpa [splitAssign, mkDiag, posOf, pos0] using h

/-- C7 counterexample: `df.select(f(x))` — a select call one of whose
arguments is a call whose callee is a plain name — makes
`select_contains_alias_call` raise `AttributeError` (modelled by `none`),
and the exception propagates out of the rule's `visit_expr`, contradicting
"never raises an error". -/
theorem C7_malformed_node_counterexample :
    select_contains_alias_call dfSelectNameCall = none
    ∧ selectAliasChecker_visit_expr dfSelectNameCall = none :=
  ⟨rfl, rfl⟩

/-- C7 amended: a call whose *top-level* callee carries no attribute name is
treated as condition-not-met (the predicates return False and the alias rule
emits nothing, without error); but when a direct argument of a `select` call
is itself a call whose callee carries no attribute name, the predicate
raises `AttributeError`, which propagates out of that node's evaluation. -/
theorem C7_malformed_node_amended :
    (∀ (p cp : Pos) (f : Node) (args : List Node),
        getAttrname f = none →
        select_contains_alias_call (Node.expr p (Node.call cp f args)) = some false)
    ∧ (∀ (p cp : Pos) (f : Node) (args : List Node),
        getAttrname f = none →
        select_contains_cast_call (Node.expr p (Node.call cp f args)) = some false)
    ∧ (∀ (p cp : Pos) (f : Node) (args : List Node),
        getAttrname f = none →
        selectAliasChecker_visit_expr (Node.expr p (Node.call cp f args)) = some [])
    ∧ (∀ (p cp ap aq : Pos) (obj inner : Node) (iargs rest : List Node),
        getAttrname inner = none →
        select_contains_alias_call
          (Node.expr p (Node.call cp (Node.attribute ap obj "select")
            (Node.call aq inner iargs :: rest))) = none) := by
  refine ⟨?_, ?_, ?_, ?_⟩
  · intro p cp f args h
    simp [select_contains_alias_call, getValue, callFunc, h]
  · intro p cp f args h
    simp [select_contains_cast_call, getValue, callFunc, h]
  · intro p cp f args h
    simp [selectAliasChecker_visit_expr, select_contains_alias_call, getValue, callFunc, h]
  · intro p cp ap aq obj inner iargs rest h
    have step : select_contains_alias_call
        (Node.expr p (Node.call cp (Node.attribute ap obj "select")
          (Node.call aq inner iargs :: rest)))
        = args_contain_alias (Node.call aq inner iargs :: rest) := by
      simp [select_contains_alias_call, getValue, callFunc, callArgs, getAttrname]
    rw [step, args_contain_alias_cons_none aq inner iargs rest h]

/-- C7 witness: the amended theorem applied to `select(col)(...)`-shaped
nodes: a callee that is a plain name (no `attrname`) yields condition-not-met
without a diagnostic, and a select argument with a plain-name callee yields
the propagated error. -/
theorem C7_malformed_node_amended_witness :
    select_contains_alias_call
        (Node.expr pos0 (Node.call pos0 (Node.name pos0 "select") [Node.name pos0 "c"]))
      = some false
    ∧ selectAliasChecker_visit_expr
        (Node.expr pos0 (Node.call pos0 (Node.name pos0 "select") [Node.name pos0 "c"]))
      = some []
    ∧ select_contains_alias_call
        (Node.expr pos0 (Node.call pos0 (Node.attribute pos0 (Node.name pos0 "df") "select")
          [Node.call pos0 (Node.name pos0 "f") [Node.name pos0 "x"]])) = none :=
  ⟨C7_malformed_node_amended.1 pos0 pos0 _ _ rfl,
   C7_malformed_node_amended.2.2.1 pos0 pos0 _ _ rfl,
   C7_malformed_node_amended.2.2.2 pos0 pos0 pos0 pos0 _ _ _ _ rfl⟩

/-- C8 counterexample: `is_line_split` on a bare name — a node with no
applicable children — returns Python `None` (modelled `none`), not the
boolean `false`; and `get_length` is not total: a tuple holding an integer
literal raises `AttributeError` on `value.name`. -/
theorem C8_metric_totality_counterexample :
    is_line_split (Node.name pos0 "x") = none
    ∧ is_line_split (Node.name pos0 "x") ≠ some false
    ∧ get_length (Node.tuple pos0 [Node.const pos0 (PyVal.int 1)]) = none :=
  ⟨rfl, by simp [is_line_split], rfl⟩

/-- C8 amended: `get_length` returns 0 for the variants it does not handle
(`FunctionDef`, expression statements) but raises on a tuple with a
non-named element; `is_line_split` returns `false` for `Function`, `Call`
and `Assign` nodes whose applicable children all share the node's line
(including when there are none), and returns Python `None` — not `false` —
for every other node kind. -/
theorem C8_metric_totality_amended :
    (∀ (p : Pos) (v : Node), get_length (Node.expr p v) = some 0)
    ∧ (∀ (p : Pos) (nm : String) (prms body : List Node),
        get_length (Node.functionDef p nm prms body) = some 0)
    ∧ (∀ (p : Pos) (f : Node) (args : List Node),
        (∀ a ∈ args, (posOf a).lineno = p.lineno) →
        is_line_split (Node.call p f args) = some false)
    ∧ (∀ (p : Pos) (nm : String) (prms body : List Node),
        (∀ a ∈ prms, (posOf a).lineno = p.lineno) →
        is_line_split (Node.functionDef p nm prms body) = some false)
    ∧ (∀ (p q : Pos) (ts : List Node) (id : String),
        is_line_split (Node.assign p ts (Node.name q id)) = some false)
    ∧ (∀ (p : Pos) (ts : List Node) (v : Node),
        (∀ args : List Node, callArgs v = some args →
            ∀ a ∈ args, (posOf a).lineno = p.lineno) →
        (∀ elts : List Node, getElts v = some elts →
            ∀ a ∈ elts, (posOf a).lineno = p.lineno) →
        is_line_split (Node.assign p ts v) = some false)
    ∧ (∀ nd : Node, lineSplitHandled nd = false → is_line_split nd = none) := by
  refine ⟨fun p v => rfl, fun p nm prms body => rfl, ?_, ?_, fun p q ts id => rfl, ?_, ?_⟩
  · intro p f args h
    simp only [is_line_split, Option.some.injEq, List.any_eq_false, bne_iff_ne, ne_eq,
      Decidable.not_not]
    exact fun a ha => h a ha
  · intro p nm prms body h
    simp only [is_line_split, Option.some.injEq, List.any_eq_false, bne_iff_ne, ne_eq,
      Decidable.not_not]
    exact fun a ha => h a ha
  · intro p ts v h1 h2
    cases v <;>
      first
      | rfl
      | (simp only [is_line_split, Option.some.injEq, Bool.or_false, Bool.false_or,
            List.any_eq_false, bne_iff_ne, ne_eq, Decidable.not_not]
         first
         | exact fun a ha => h1 _ rfl a ha
         | exact fun a ha => h2 _ rfl a ha)
  · intro nd h
    cases nd <;> first | rfl | simp [lineSplitHandled] at h

/-- C8 witness: the amended theorem applied to a one-line call `f(a)` (all
children on line 1), to the one-line assignment `x = f(a)` (the value's
arguments share line 1), and to a bare name. -/
theorem C8_metric_totality_amended_witness :
    is_line_split (Node.call pos0 (Node.name pos0 "f") [Node.name ⟨1, 2⟩ "a"]) = some false
    ∧ is_line_split (Node.assign pos0 [Node.assignName pos0 "x"]
        (Node.call ⟨1, 4⟩ (Node.name ⟨1, 4⟩ "f") [Node.name ⟨1, 6⟩ "a"])) = some false
    ∧ is_line_split (Node.name pos0 "z") = none :=
  ⟨C8_metric_totality_amended.2.2.1 pos0 _ _
     (by intro a ha; simp at ha; subst ha; rfl),
   C8_metric_totality_amended.2.2.2.2.2.1 pos0 _ _
     (by intro args hargs a ha
         simp [callArgs] at hargs
         subst hargs
         simp at ha
         subst ha
         rfl)
     (by intro elts helts
         simp [getElts] at helts),
   C8_metric_totality_amended.2.2.2.2.2.2 _ rfl⟩

/-- C9: the rendered length of a tuple of `n` simple names is the sum of the
identifier lengths plus `2*(n-1)` separators when `n > 1` and no separator
term when `n = 1`, while the rendered length of a list is the plain sum of
its elements' rendered lengths with no separator overhead. -/
theorem C9_tuple_list_length_asymmetry :
    (∀ (p : Pos) (elts : List (Pos × String)),
        get_length (tupleOfNames p elts)
          = some ((elts.map fun q => q.2.length).sum
              + if 1 < elts.length then (elts.length - 1) * 2 else 0))
    ∧ (∀ (p : Pos) (elts : List Node) (lens : List Nat),
        elts.mapM get_length = some lens →
        get_length (Node.list p elts) = some lens.sum) := by
  constructor
  · intro p elts
    rw [tupleOfNames]
    simp only [get_length, sum_elt_name_lengths_names, Option.some_bind, List.length_map]
    split <;> simp
  · intro p elts lens h
    simp only [get_length]
    exact list_elts_length_eq_mapM elts lens h

/-- C9 witness: the theorem applied to the list `[ab, 7]` (lengths 2 and 3,
total 5) and — via the tuple half — to the tuples `(a,)` and `(ab, c)`. -/
theorem C9_tuple_list_length_asymmetry_witness :
    [Node.name pos0 "ab", Node.const pos0 (PyVal.int 7)].mapM get_length = some [2, 3]
    ∧ get_length (Node.list pos0 [Node.name pos0 "ab", Node.const pos0 (PyVal.int 7)])
        = some 5
    ∧ get_length (tupleOfNames pos0 [(pos0, "a")]) = some 1
    ∧ get_length (tupleOfNames pos0 [(pos0, "ab"), (pos0, "c")]) = some 5 := by
  refine ⟨rfl, ?_, ?_, ?_⟩
  · simpa using C9_tuple_list_length_asymmetry.2 pos0
      [Node.name pos0 "ab", Node.const pos0 (PyVal.int 7)] [2, 3] rfl
  · simpa using C9_tuple_list_length_asymmetry.1 pos0 [(pos0, "a")]
  · simpa using C9_tuple_list_length_asymmetry.1 pos0 [(pos0, "ab"), (pos0, "c")]

end PysparkStyle
